import Mathlib

/-!
# Verification of the optuna `visualization` module

A shallow embedding of `optuna/visualization.py` (the three plot builders
`_get_intermediate_plot`, `_get_optimization_history_plot`, `_get_slice_plot`
and the helper `_generate_slice_subplot`), together with proofs of the
documented properties.

Modelling conventions:
* Python floats are modelled as rationals (`ℚ`); the special values
  `float('inf')` / `-float('inf')` and the `None` placeholder are the extra
  constructors of `PyVal`.
* A trial is a record mirroring the fields of `FrozenTrial` that this module
  reads: `number`, `state`, `value` (optional numeric, per the data model the
  value is either numeric or a non-numeric placeholder, modelled as `none`),
  `params` (an association list standing for the Python dict, in insertion
  order), and `intermediate_values` (an optional association list; `none`
  models the absence of the attribute, i.e. `hasattr` returning `False`).
* Plotly figures are value objects: a `Scatter` trace records exactly the
  fields this module sets, a `Figure` is traces plus a layout, and the
  `make_subplots` grid is a `SubplotFigure` recording the column count, the
  traces with their grid positions, and the per-cell axis titles.
* `logger.warning` calls are modelled by returning the list of warning
  messages alongside the figure; the `ValueError` raised by the history
  builder is modelled with `Except String`; the `AttributeError` that a trial
  without `intermediate_values` would raise inside the trace loop is modelled
  by an `Option` result.
-/

/-- Trial states read by this module (`optuna.structs.TrialState`). -/
inductive TrialState
  | running
  | complete
  | pruned
  | fail
  deriving DecidableEq, Repr

/-- Study directions (`optuna.structs.StudyDirection`). -/
inductive StudyDirection
  | minimize
  | maximize
  deriving DecidableEq, Repr

/-- A Python scalar value as it appears in the lists this module builds:
`None`, `float('inf')`, `-float('inf')`, or a finite number. -/
inductive PyVal
  | pnone
  | inf
  | ninf
  | num (q : ℚ)
  deriving DecidableEq, Repr

/-- Python `<` on the values compared by this module (the history builder
only ever compares `float('inf')`/`-float('inf')` with finite numbers;
comparisons involving `None` would raise in Python and are unreachable here,
the function returns `false` on them). -/
def PyVal.lt : PyVal → PyVal → Bool
  | .num a, .num b => a < b
  | .ninf, .num _ => true
  | .ninf, .inf => true
  | .num _, .inf => true
  | _, _ => false

/-- Python `min(a, b)`: returns `b` exactly when `b < a`. -/
def pymin (a b : PyVal) : PyVal :=
  if PyVal.lt b a then b else a

/-- Python `max(a, b)`: returns `b` exactly when `a < b`. -/
def pymax (a b : PyVal) : PyVal :=
  if PyVal.lt a b then b else a

/-- The fields of `optuna.structs.FrozenTrial` read by this module. -/
structure FrozenTrial where
  number : Nat
  state : TrialState
  value : Option ℚ := none
  params : List (String × ℚ) := []
  intermediate_values : Option (List (Nat × ℚ)) := none
  deriving DecidableEq, Repr

/-- The fields of `optuna.study.Study` read by this module. -/
structure Study where
  direction : StudyDirection
  trials : List FrozenTrial
  deriving DecidableEq, Repr

/-- `trial.value` as it is placed into a plotly list (`None` stays `None`). -/
def optVal : Option ℚ → PyVal
  | none => .pnone
  | some q => .num q

/-- The marker options this module sets on a `go.Scatter`. -/
structure Marker where
  maxdisplayed : Option Nat := none
  color : Option (List PyVal) := none
  colorscale : Option String := none
  colorbarTitle : Option String := none
  showscale : Option Bool := none
  deriving DecidableEq, Repr

/-- The `go.Scatter` fields this module sets. -/
structure Scatter where
  x : List PyVal := []
  y : List PyVal := []
  mode : Option String := none
  marker : Marker := {}
  name : Option String := none
  showlegend : Option Bool := none
  deriving DecidableEq, Repr

/-- The `go.Layout` fields this module sets (axis titles may be added later
by `update_xaxes` / `update_yaxes` on a single-panel figure). -/
structure Layout where
  title : String
  xaxisTitle : Option String := none
  yaxisTitle : Option String := none
  showlegend : Option Bool := none
  deriving DecidableEq, Repr

/-- A plain `go.Figure`: a list of traces plus a layout. -/
structure Figure where
  data : List Scatter
  layout : Layout
  deriving DecidableEq, Repr

/-- A figure produced by `plotly.subplots.make_subplots` and then populated
with `add_trace` / `update_xaxes` / `update_yaxes`: the grid shape, the
traces with their (row, col) positions, and the axis titles with their
(row, col) positions. -/
structure SubplotFigure where
  rows : Nat
  cols : Nat
  sharedYaxes : Bool
  traces : List (Scatter × Nat × Nat) := []
  xaxisTitles : List (String × Nat × Nat) := []
  yaxisTitles : List (String × Nat × Nat) := []
  layout : Layout
  deriving DecidableEq, Repr

/-- The result of `_get_slice_plot`: either a plain figure (empty shell or
the single-parameter chart) or a subplot grid. -/
inductive SliceFigure
  | plain (f : Figure)
  | grid (f : SubplotFigure)
  deriving DecidableEq, Repr

/-! ## `_get_intermediate_plot` -/

/-- The layout literal built at the top of `_get_intermediate_plot`. -/
def intermediateLayout : Layout :=
  { title := "Intermediate Values Plot"
    xaxisTitle := some "Step"
    yaxisTitle := some "Intermediate Value"
    showlegend := some false }

/-- The states kept by `_get_intermediate_plot` (`target_state`). -/
def targetState : List TrialState :=
  [.pruned, .complete, .running]

/-- One iteration of the trace loop of `_get_intermediate_plot`: reading
`trial.intermediate_values` on a trial without the attribute raises
(`none`); otherwise the `go.Scatter` built from its keys and values. -/
def intermediateTrace (t : FrozenTrial) : Option Scatter :=
  t.intermediate_values.map (fun iv =>
    { x := iv.map (fun p => PyVal.num p.1)
      y := iv.map (fun p => PyVal.num p.2)
      mode := some "lines+markers"
      marker := { maxdisplayed := some 10 }
      name := some ("Trial" ++ toString t.number) })

/-- `_get_intermediate_plot(study)`.  Returns the warnings logged and the
figure; `none` for the figure models the `AttributeError` raised when the
trace loop reads `intermediate_values` on a trial lacking the attribute
(only reachable when the first filtered trial has it and a later one does
not). -/
def getIntermediatePlot (study : Study) : List String × Option Figure :=
  let trials := study.trials.filter (fun t => targetState.contains t.state)
  match trials with
  | [] =>
    (["Study instance does not contain trials."],
     some { data := [], layout := intermediateLayout })
  | t0 :: _ =>
    if t0.intermediate_values.isNone then
      (["You need to set up the pruning feature to utilize plot_intermediate_values()"],
       some { data := [], layout := intermediateLayout })
    else
      ([], (trials.mapM intermediateTrace).map
        (fun traces => { data := traces, layout := intermediateLayout }))

/-! ## `_get_optimization_history_plot` -/

/-- The layout literal built at the top of `_get_optimization_history_plot`. -/
def historyLayout : Layout :=
  { title := "Optimization History Plot"
    xaxisTitle := some "#Trials"
    yaxisTitle := some "Objective Value" }

/-- The `ValueError` message raised for a COMPLETE trial with a non-float
value. -/
def valueErrorMsg (n : Nat) : String :=
  "Trial" ++ toString n ++ " has COMPLETE state, but its value is non float."

/-- The trial loop of `_get_optimization_history_plot`: starting from the
current last element `acc` of `best_values`, check each trial's value is a
float (else raise) and append `min`/`max` of the previous best and the
value.  Returns the appended elements (the seed is popped by the caller). -/
def bestValuesAux (dir : StudyDirection) (acc : PyVal) :
    List FrozenTrial → Except String (List PyVal)
  | [] => .ok []
  | t :: ts =>
    match t.value with
    | none => .error (valueErrorMsg t.number)
    | some v =>
      let b := if dir = .minimize then pymin acc (.num v) else pymax acc (.num v)
      (bestValuesAux dir b ts).map (fun rest => b :: rest)

/-- The first trace of the history figure: the raw objective values as
markers, over the trial numbers. -/
def rawValuesTrace (trials : List FrozenTrial) : Scatter :=
  { x := trials.map (fun t => PyVal.num t.number),
    y := trials.map (fun t => optVal t.value),
    mode := some "markers",
    name := some "Objective Value" }

/-- The second trace of the history figure: the best-so-far values over the
trial numbers. -/
def bestValuesTrace (trials : List FrozenTrial) (best : List PyVal) : Scatter :=
  { x := trials.map (fun t => PyVal.num t.number),
    y := best,
    name := some "Best Value" }

/-- `_get_optimization_history_plot(study)`.  Returns the warnings logged
and the figure, or the `ValueError` message. -/
def getOptimizationHistoryPlot (study : Study) :
    Except String (List String × Figure) :=
  let trials := study.trials.filter (fun t => t.state = TrialState.complete)
  if trials.length = 0 then
    .ok (["Study instance does not contain trials."],
         { data := [], layout := historyLayout })
  else
    let seed := if study.direction = .minimize then PyVal.inf else PyVal.ninf
    (bestValuesAux study.direction seed trials).map (fun best =>
      ([], { data := [rawValuesTrace trials, bestValuesTrace trials best],
             layout := historyLayout }))

/-! ## `_get_slice_plot` -/

/-- The layout literal built at the top of `_get_slice_plot`. -/
def sliceLayout : Layout :=
  { title := "Slice Plot" }

/-- `param in t.params`. -/
def hasParam (t : FrozenTrial) (p : String) : Bool :=
  (t.params.lookup p).isSome

/-- `t.params[param]`; only evaluated on trials where the key is present
(the comprehensions guard it with `hasParam`), the default is never read. -/
def paramVal (t : FrozenTrial) (p : String) : ℚ :=
  (t.params.lookup p).getD 0

/-- `_generate_slice_subplot(trials, param)`: three parallel comprehensions
over the trials having the parameter. -/
def generateSliceSubplot (trials : List FrozenTrial) (param : String) : Scatter :=
  { x := (trials.filter (fun t => hasParam t param)).map (fun t => PyVal.num (paramVal t param)),
    y := (trials.filter (fun t => hasParam t param)).map (fun t => optVal t.value),
    mode := some "markers",
    marker := { color := some ((trials.filter (fun t => hasParam t param)).map (fun t => PyVal.num t.number)),
                colorscale := some "Blues",
                colorbarTitle := some "#Trials" },
    showlegend := some false }

/-- Lexicographic strict comparison of two character lists, as Python
compares strings (by code points): a kernel-computable decision procedure
for `List.lt` on `Char`. -/
def charListLtB : List Char → List Char → Bool
  | [], [] => false
  | [], _ :: _ => true
  | _ :: _, [] => false
  | a :: as, b :: bs =>
    if a < b then true
    else if b < a then false
    else charListLtB as bs

/-- Lexicographic `≤` on strings (by their character data), as Python's
string order. -/
def strLeB (a b : String) : Bool :=
  !(charListLtB b.data a.data)

/-- Python `sorted` on a list of strings: the lexicographically sorted
permutation (this module only sorts de-duplicated name sets, on which any
correct sort — here an insertion sort — produces the same list). -/
def sortStr (l : List String) : List String :=
  l.insertionSort (fun a b => strLeB a b = true)

/-- The union of parameter names across a trial list
(`{p_name for t in trials for p_name in t.params.keys()}`), de-duplicated. -/
def allParamNames (trials : List FrozenTrial) : List String :=
  (trials.flatMap (fun t => t.params.map Prod.fst)).dedup

/-- `trace.update(marker=dict(showscale=b))`: merge `showscale` into the
trace's marker options. -/
def setShowscale (s : Scatter) (b : Bool) : Scatter :=
  { s with marker := { s.marker with showscale := some b } }

/-- The figure-building tail of `_get_slice_plot` once `sorted_params` is
known: the single-parameter branch, or the `make_subplots` loop (also taken
when `sorted_params` is empty, with zero columns). -/
def slicePlotFrom (trials : List FrozenTrial) (sorted_params : List String) :
    SliceFigure :=
  match sorted_params with
  | [p] =>
    .plain { data := [generateSliceSubplot trials p]
             layout := { sliceLayout with
               xaxisTitle := some p
               yaxisTitle := some "Objective Value" } }
  | ps =>
    .grid { rows := 1
            cols := ps.length
            sharedYaxes := true
            traces := ps.enum.map (fun ip =>
              (setShowscale (generateSliceSubplot trials ip.2) (ip.1 = 0),
               1, ip.1 + 1))
            xaxisTitles := ps.enum.map (fun ip => (ip.2, 1, ip.1 + 1))
            yaxisTitles := if ps.isEmpty then [] else [("Objective Value", 1, 1)]
            layout := sliceLayout }

/-- `_get_slice_plot(study, params)`.  Returns the warnings logged and the
resulting figure. -/
def getSlicePlot (study : Study) (params : List String) :
    List String × SliceFigure :=
  let trials := study.trials.filter (fun t => t.state = TrialState.complete)
  if trials.length = 0 then
    (["Your study does not have any completed trials."],
     .plain { data := [], layout := sliceLayout })
  else
    let all_params := allParamNames trials
    if params.length = 0 then
      ([], slicePlotFrom trials (sortStr all_params))
    else
      match params.find? (fun p => !(all_params.contains p)) with
      | some bad =>
        (["Parameter " ++ bad ++ " does not exist in your study."],
         .plain { data := [], layout := sliceLayout })
      | none =>
        ([], slicePlotFrom trials (sortStr params.dedup))

/-! ## Derived notions used in the statements -/

/-- The COMPLETE trials of a study, in original order (the filter performed
by the history and slice builders). -/
def completeTrials (s : Study) : List FrozenTrial :=
  s.trials.filter (fun t => t.state = TrialState.complete)

/-- The numeric values of a trial list (all of them, when every value is
present). -/
def trialVals (ts : List FrozenTrial) : List ℚ :=
  ts.filterMap (fun t => t.value)

/-- The best-so-far sequence as the specification describes it: the running
best is seeded with the direction's infinity — `+inf` for MINIMIZE, `-inf`
for MAXIMIZE, the identity of `min` resp. `max` — so after the seed is
dropped, `best 0 = value 0` and `best i = min/max (best (i-1)) (value i)`.
`bestSoFarFrom` carries the running best `b`. -/
def bestSoFarFrom (dir : StudyDirection) (b : ℚ) : List ℚ → List ℚ
  | [] => []
  | v :: vs =>
    let c := if dir = .minimize then min b v else max b v
    c :: bestSoFarFrom dir c vs

/-- The best-so-far sequence of a value list (see `bestSoFarFrom`): the
first element is the first value, since `min`/`max` against the infinite
seed is the value itself. -/
def bestSoFar (dir : StudyDirection) : List ℚ → List ℚ
  | [] => []
  | v :: vs => v :: bestSoFarFrom dir v vs

/-- The parameter names labelling the panels of a slice figure: the x-axis
title of a plain figure (none on an empty shell), or the per-column x-axis
titles of a subplot grid. -/
def panelNames : SliceFigure → List String
  | .plain f => f.layout.xaxisTitle.toList
  | .grid f => f.xaxisTitles.map (fun e => e.1)

/-- The number of panels of a slice figure: the traces of a plain figure,
or the traces placed on a subplot grid. -/
def panelCount : SliceFigure → Nat
  | .plain f => f.data.length
  | .grid f => f.traces.length

/-! ## Concrete studies used as witnesses and counterexamples -/

/-- A COMPLETE trial with a numeric value and no parameters. -/
def mkCompleteTrial (n : Nat) (v : ℚ) : FrozenTrial :=
  { number := n, state := .complete, value := some v }

/-- The four-trial MINIMIZE study with values `[5, 3, 8, 1]`. -/
def studyMin5381 : Study :=
  { direction := .minimize,
    trials := [mkCompleteTrial 0 5, mkCompleteTrial 1 3,
               mkCompleteTrial 2 8, mkCompleteTrial 3 1] }

/-- The four-trial MAXIMIZE study with values `[5, 3, 8, 1]`. -/
def studyMax5381 : Study :=
  { direction := .maximize,
    trials := [mkCompleteTrial 0 5, mkCompleteTrial 1 3,
               mkCompleteTrial 2 8, mkCompleteTrial 3 1] }

/-- A study whose COMPLETE trial number 1 has a non-numeric value. -/
def studyBadValue : Study :=
  { direction := .minimize,
    trials := [mkCompleteTrial 0 5, { number := 1, state := .complete }] }

/-- A study whose first filtered trial (RUNNING, no `intermediate_values`)
hides the intermediate values that its second filtered trial (PRUNED) does
expose. -/
def studyFirstNoIv : Study :=
  { direction := .minimize,
    trials := [{ number := 0, state := .running },
               { number := 1, state := .pruned,
                 intermediate_values := some [(0, 1)] }] }

/-- A PRUNED trial exposing two intermediate values. -/
def ivTrial0 : FrozenTrial :=
  { number := 0, state := .pruned, intermediate_values := some [(0, 1), (1, 2)] }

/-- A RUNNING trial exposing one intermediate value. -/
def ivTrial1 : FrozenTrial :=
  { number := 1, state := .running, intermediate_values := some [(2, 7)] }

/-- A study whose filtered trials all expose intermediate values. -/
def studyWithIv : Study :=
  { direction := .minimize, trials := [ivTrial0, ivTrial1] }

/-- A study with one RUNNING trial and no COMPLETE trial. -/
def studyNoComplete : Study :=
  { direction := .minimize,
    trials := [{ number := 0, state := .running }] }

/-- A study with two COMPLETE trials over parameters `a` (both trials) and
`b` (first trial only). -/
def studySliceDemo : Study :=
  { direction := .minimize,
    trials := [{ number := 0, state := .complete, value := some 2,
                 params := [("b", 1), ("a", 2)] },
               { number := 1, state := .complete, value := some 3,
                 params := [("a", 5)] }] }

/-- A study with one COMPLETE trial that has no parameters. -/
def studyNoParams : Study :=
  { direction := .minimize, trials := [mkCompleteTrial 0 7] }

/-- The subplot grid the slice builder produces for `studySliceDemo` with
an empty params list: panels for `a` and `b`, the first carrying the
color-scale legend. -/
def demoGrid : SubplotFigure :=
  { rows := 1, cols := 2, sharedYaxes := true,
    traces := [(setShowscale (generateSliceSubplot (completeTrials studySliceDemo) "a") true, 1, 1),
               (setShowscale (generateSliceSubplot (completeTrials studySliceDemo) "b") false, 1, 2)],
    xaxisTitles := [("a", 1, 1), ("b", 1, 2)],
    yaxisTitles := [("Objective Value", 1, 1)],
    layout := sliceLayout }

/-! ## Lemmas about the history builder -/

theorem pymin_num (a v : ℚ) : pymin (PyVal.num a) (PyVal.num v) = PyVal.num (min a v) := by
  simp only [pymin, PyVal.lt]
  by_cases h : v < a
  · simp [h, min_eq_right (le_of_lt h)]
  · simp [h, min_eq_left (le_of_not_lt h)]

theorem pymax_num (a v : ℚ) : pymax (PyVal.num a) (PyVal.num v) = PyVal.num (max a v) := by
  simp only [pymax, PyVal.lt]
  by_cases h : a < v
  · simp [h, max_eq_right (le_of_lt h)]
  · simp [h, max_eq_left (le_of_not_lt h)]

theorem trialVals_cons_some (t : FrozenTrial) (ts : List FrozenTrial) (v : ℚ)
    (hv : t.value = some v) : trialVals (t :: ts) = v :: trialVals ts := by
  simp [trialVals, hv]

theorem trialVals_length (ts : List FrozenTrial)
    (h : ∀ t ∈ ts, (t.value).isSome) : (trialVals ts).length = ts.length := by
  induction ts with
  | nil => rfl
  | cons t ts ih =>
    obtain ⟨v, hv⟩ := Option.isSome_iff_exists.mp (h t (by simp))
    rw [trialVals_cons_some t ts v hv]
    simp only [List.length_cons]
    rw [ih (fun t' ht' => h t' (by simp [ht']))]

theorem bestValuesAux_num (dir : StudyDirection) (ts : List FrozenTrial) :
    ∀ a : ℚ, (∀ t ∈ ts, (t.value).isSome) →
    bestValuesAux dir (PyVal.num a) ts =
      .ok ((bestSoFarFrom dir a (trialVals ts)).map PyVal.num) := by
  induction ts with
  | nil => intro a _; rfl
  | cons t ts ih =>
    intro a h
    obtain ⟨v, hv⟩ := Option.isSome_iff_exists.mp (h t (by simp))
    rw [trialVals_cons_some t ts v hv]
    simp only [bestValuesAux, hv, bestSoFarFrom]
    rw [pymin_num, pymax_num, ← apply_ite PyVal.num]
    rw [ih (if dir = .minimize then min a v else max a v)
      (fun t' ht' => h t' (by simp [ht']))]
    rfl

theorem bestValuesAux_seed (dir : StudyDirection) (ts : List FrozenTrial)
    (h : ∀ t ∈ ts, (t.value).isSome) :
    bestValuesAux dir (if dir = .minimize then PyVal.inf else PyVal.ninf) ts =
      .ok ((bestSoFar dir (trialVals ts)).map PyVal.num) := by
  cases ts with
  | nil => cases dir <;> rfl
  | cons t ts =>
    obtain ⟨v, hv⟩ := Option.isSome_iff_exists.mp (h t (by simp))
    rw [trialVals_cons_some t ts v hv]
    have htl : ∀ t' ∈ ts, (t'.value).isSome := fun t' ht' => h t' (by simp [ht'])
    cases dir with
    | minimize =>
      simp [bestValuesAux, hv, bestSoFar, pymin, PyVal.lt,
        bestValuesAux_num .minimize ts v htl, Except.map]
    | maximize =>
      simp [bestValuesAux, hv, bestSoFar, pymax, PyVal.lt,
        bestValuesAux_num .maximize ts v htl, Except.map]

theorem historyPlot_ok (s : Study) (h : ∀ t ∈ completeTrials s, (t.value).isSome)
    (hne : completeTrials s ≠ []) :
    getOptimizationHistoryPlot s = .ok ([],
      { data := [rawValuesTrace (completeTrials s),
                 bestValuesTrace (completeTrials s)
                   ((bestSoFar s.direction (trialVals (completeTrials s))).map PyVal.num)],
        layout := historyLayout }) := by
  have hct : s.trials.filter (fun t => t.state = TrialState.complete) = completeTrials s := rfl
  simp only [getOptimizationHistoryPlot, hct]
  rw [if_neg (by simpa using hne)]
  rw [bestValuesAux_seed s.direction (completeTrials s) h]
  rfl

theorem bestSoFarFrom_length (dir : StudyDirection) (l : List ℚ) :
    ∀ b, (bestSoFarFrom dir b l).length = l.length := by
  induction l with
  | nil => intro b; rfl
  | cons v vs ih => intro b; simp [bestSoFarFrom, ih]

theorem bestSoFar_length (dir : StudyDirection) (l : List ℚ) :
    (bestSoFar dir l).length = l.length := by
  cases l with
  | nil => rfl
  | cons v vs => simp [bestSoFar, bestSoFarFrom_length]

theorem bestSoFarFrom_chain_min (l : List ℚ) :
    ∀ b, List.Chain' (fun x y => y ≤ x) (b :: bestSoFarFrom .minimize b l) := by
  induction l with
  | nil => intro b; simp [bestSoFarFrom]
  | cons v vs ih =>
    intro b
    exact List.chain'_cons.mpr ⟨min_le_left b v, ih (min b v)⟩

theorem bestSoFarFrom_chain_max (l : List ℚ) :
    ∀ b, List.Chain' (fun x y => x ≤ y) (b :: bestSoFarFrom .maximize b l) := by
  induction l with
  | nil => intro b; simp [bestSoFarFrom]
  | cons v vs ih =>
    intro b
    exact List.chain'_cons.mpr ⟨le_max_left b v, ih (max b v)⟩

theorem bestSoFar_chain_min (l : List ℚ) :
    List.Chain' (fun x y => y ≤ x) (bestSoFar .minimize l) := by
  cases l with
  | nil => simp [bestSoFar]
  | cons v vs => exact bestSoFarFrom_chain_min vs v

theorem bestSoFar_chain_max (l : List ℚ) :
    List.Chain' (fun x y => x ≤ y) (bestSoFar .maximize l) := by
  cases l with
  | nil => simp [bestSoFar]
  | cons v vs => exact bestSoFarFrom_chain_max vs v

theorem bestValuesAux_error_iff (dir : StudyDirection) (ts : List FrozenTrial) :
    ∀ acc, (∃ e, bestValuesAux dir acc ts = .error e) ↔ ∃ t ∈ ts, t.value = none := by
  induction ts with
  | nil => intro acc; simp [bestValuesAux]
  | cons t ts ih =>
    intro acc
    cases hv : t.value with
    | none =>
      simp only [bestValuesAux, hv]
      constructor
      · intro _; exact ⟨t, by simp, hv⟩
      · intro _; exact ⟨valueErrorMsg t.number, rfl⟩
    | some v =>
      simp only [bestValuesAux, hv]
      cases hrec : bestValuesAux dir
          (if dir = .minimize then pymin acc (.num v) else pymax acc (.num v)) ts with
      | error e =>
        simp only [Except.map]
        have : ∃ t' ∈ ts, t'.value = none :=
          (ih _).mp ⟨e, hrec⟩
        simp only [List.mem_cons]
        constructor
        · intro _
          obtain ⟨t', ht', hn⟩ := this
          exact ⟨t', Or.inr ht', hn⟩
        · intro _; exact ⟨e, rfl⟩
      | ok res =>
        simp only [Except.map]
        constructor
        · intro ⟨e, he⟩; exact absurd he (by simp)
        · intro ⟨t', ht', hn⟩
          rcases List.mem_cons.mp ht' with h1 | h1
          · rw [h1] at hn; rw [hn] at hv; exact absurd hv (by simp)
          · obtain ⟨e, he⟩ := (ih _).mpr ⟨t', h1, hn⟩
            rw [he] at hrec; exact absurd hrec (by simp)

theorem bestValuesAux_error_find (dir : StudyDirection) (ts : List FrozenTrial) :
    ∀ acc e, bestValuesAux dir acc ts = .error e →
    ∃ t, ts.find? (fun t => (t.value).isNone) = some t ∧ e = valueErrorMsg t.number := by
  induction ts with
  | nil => intro acc e h; exact absurd h (by simp [bestValuesAux])
  | cons t ts ih =>
    intro acc e h
    cases hv : t.value with
    | none =>
      simp only [bestValuesAux, hv] at h
      injection h with h
      refine ⟨t, ?_, h.symm⟩
      rw [List.find?_cons_of_pos]
      simp [hv]
    | some v =>
      simp only [bestValuesAux, hv] at h
      cases hrec : bestValuesAux dir
          (if dir = .minimize then pymin acc (.num v) else pymax acc (.num v)) ts with
      | error e' =>
        rw [hrec] at h
        simp only [Except.map] at h
        injection h with h
        obtain ⟨t', hf, he⟩ := ih _ e' hrec
        refine ⟨t', ?_, h ▸ he⟩
        rw [List.find?_cons_of_neg]
        · exact hf
        · simp [hv]
      | ok res =>
        rw [hrec] at h
        simp only [Except.map] at h
        exact absurd h (by simp)

theorem historyPlot_empty (s : Study) (h : completeTrials s = []) :
    getOptimizationHistoryPlot s = .ok
      (["Study instance does not contain trials."],
       { data := [], layout := historyLayout }) := by
  have hct : s.trials.filter (fun t => t.state = TrialState.complete) = completeTrials s := rfl
  simp only [getOptimizationHistoryPlot, hct]
  rw [if_pos (by rw [h]; rfl)]

theorem historyPlot_def (s : Study) (hne : (completeTrials s).length ≠ 0) :
    getOptimizationHistoryPlot s =
      (bestValuesAux s.direction
        (if s.direction = .minimize then PyVal.inf else PyVal.ninf)
        (completeTrials s)).map (fun best =>
          ([], { data := [rawValuesTrace (completeTrials s),
                          bestValuesTrace (completeTrials s) best],
                 layout := historyLayout })) := by
  have hct : s.trials.filter (fun t => t.state = TrialState.complete) = completeTrials s := rfl
  simp only [getOptimizationHistoryPlot, hct]
  rw [if_neg hne]

/-- C1: for every study whose COMPLETE trials all have float values, the
optimization-history build computes the best-so-far sequence by seeding
with the direction's infinity and folding `min` (MINIMIZE) / `max`
(MAXIMIZE) over the COMPLETE trials' values in original order (the figure's
"Best Value" trace carries exactly `bestSoFar`); in particular for values
`[5, 3, 8, 1]` it yields `[5, 3, 3, 1]` under MINIMIZE and `[5, 5, 8, 8]`
under MAXIMIZE. -/
theorem history_best_so_far_spec :
    (∀ s : Study, completeTrials s ≠ [] →
      (∀ t ∈ completeTrials s, (t.value).isSome) →
      getOptimizationHistoryPlot s = .ok ([],
        { data := [rawValuesTrace (completeTrials s),
                   bestValuesTrace (completeTrials s)
                     ((bestSoFar s.direction (trialVals (completeTrials s))).map PyVal.num)],
          layout := historyLayout }))
    ∧ bestSoFar .minimize [5, 3, 8, 1] = [5, 3, 3, 1]
    ∧ bestSoFar .maximize [5, 3, 8, 1] = [5, 5, 8, 8]
    ∧ getOptimizationHistoryPlot studyMin5381 = .ok ([],
        { data := [rawValuesTrace (completeTrials studyMin5381),
                   bestValuesTrace (completeTrials studyMin5381)
                     [PyVal.num 5, PyVal.num 3, PyVal.num 3, PyVal.num 1]],
          layout := historyLayout })
    ∧ getOptimizationHistoryPlot studyMax5381 = .ok ([],
        { data := [rawValuesTrace (completeTrials studyMax5381),
                   bestValuesTrace (completeTrials studyMax5381)
                     [PyVal.num 5, PyVal.num 5, PyVal.num 8, PyVal.num 8]],
          layout := historyLayout }) := by
  refine ⟨fun s hne h => historyPlot_ok s h hne, by decide, by decide, by rfl, by rfl⟩

/-- Witness for C1: the hypotheses of the universally quantified conjunct
hold at the concrete study `studyMin5381`, and the theorem applies there. -/
theorem history_best_so_far_spec_witness :
    completeTrials studyMin5381 ≠ [] ∧
    (∀ t ∈ completeTrials studyMin5381, (t.value).isSome) ∧
    getOptimizationHistoryPlot studyMin5381 = .ok ([],
      { data := [rawValuesTrace (completeTrials studyMin5381),
                 bestValuesTrace (completeTrials studyMin5381)
                   ((bestSoFar studyMin5381.direction
                     (trialVals (completeTrials studyMin5381))).map PyVal.num)],
        layout := historyLayout }) :=
  ⟨by decide, by decide,
   history_best_so_far_spec.1 studyMin5381 (by decide) (by decide)⟩

/-- C2: the optimization-history build fails with the `ValueError`-kind
error exactly when some COMPLETE trial's value is not numeric; the error
message is the `ValueError` text built from the first offending trial's
number; and when every COMPLETE trial's value is numeric the build
succeeds. -/
theorem history_value_error_spec : ∀ s : Study,
    ((∃ e, getOptimizationHistoryPlot s = .error e) ↔
      ∃ t ∈ completeTrials s, t.value = none)
    ∧ (∀ e, getOptimizationHistoryPlot s = .error e →
        ∃ t, (completeTrials s).find? (fun t => (t.value).isNone) = some t ∧
          t.value = none ∧ e = valueErrorMsg t.number)
    ∧ ((∀ t ∈ completeTrials s, (t.value).isSome) →
        ∃ r, getOptimizationHistoryPlot s = .ok r) := by
  intro s
  by_cases hlen : (completeTrials s).length = 0
  · have hempty : completeTrials s = [] := List.length_eq_zero.mp hlen
    have hplot := historyPlot_empty s hempty
    refine ⟨⟨?_, ?_⟩, ?_, ?_⟩
    · intro ⟨e, he⟩
      rw [hplot] at he
      exact absurd he (by simp)
    · intro ⟨t, ht, _⟩
      rw [hempty] at ht
      exact absurd ht (by simp)
    · intro e he
      rw [hplot] at he
      exact absurd he (by simp)
    · intro _
      exact ⟨_, hplot⟩
  · have hplot := historyPlot_def s hlen
    refine ⟨⟨?_, ?_⟩, ?_, ?_⟩
    · intro ⟨e, he⟩
      rw [hplot] at he
      cases hrec : bestValuesAux s.direction
          (if s.direction = .minimize then PyVal.inf else PyVal.ninf)
          (completeTrials s) with
      | error e' =>
        exact (bestValuesAux_error_iff s.direction (completeTrials s) _).mp ⟨e', hrec⟩
      | ok r =>
        rw [hrec] at he
        simp only [Except.map] at he
        exact absurd he (by simp)
    · intro hex
      obtain ⟨e, he⟩ :=
        (bestValuesAux_error_iff s.direction (completeTrials s)
          (if s.direction = .minimize then PyVal.inf else PyVal.ninf)).mpr hex
      refine ⟨e, ?_⟩
      rw [hplot, he]
      rfl
    · intro e he
      rw [hplot] at he
      cases hrec : bestValuesAux s.direction
          (if s.direction = .minimize then PyVal.inf else PyVal.ninf)
          (completeTrials s) with
      | error e' =>
        rw [hrec] at he
        simp only [Except.map] at he
        injection he with he
        obtain ⟨t, hf, hmsg⟩ := bestValuesAux_error_find s.direction (completeTrials s) _ e' hrec
        have ht : t.value = none := by
          have := List.find?_some hf
          simpa [Option.isNone_iff_eq_none] using this
        exact ⟨t, hf, ht, he ▸ hmsg⟩
      | ok r =>
        rw [hrec] at he
        simp only [Except.map] at he
        exact absurd he (by simp)
    · intro hall
      refine ⟨_, historyPlot_ok s hall ?_⟩
      intro hc
      exact hlen (by rw [hc]; rfl)

/-- Witness for C2: the theorem applied at the concrete study whose trial
number 1 has a non-numeric value; its error message names trial 1. -/
theorem history_value_error_spec_witness :
    ((∃ e, getOptimizationHistoryPlot studyBadValue = .error e) ↔
      ∃ t ∈ completeTrials studyBadValue, t.value = none)
    ∧ (∀ e, getOptimizationHistoryPlot studyBadValue = .error e →
        ∃ t, (completeTrials studyBadValue).find? (fun t => (t.value).isNone) = some t ∧
          t.value = none ∧ e = valueErrorMsg t.number)
    ∧ ((∀ t ∈ completeTrials studyBadValue, (t.value).isSome) →
        ∃ r, getOptimizationHistoryPlot studyBadValue = .ok r) :=
  history_value_error_spec studyBadValue

/-- C4: for every study whose COMPLETE trials all have numeric values, the
optimization-history build succeeds and its best-so-far series (the
figure's last trace) is monotonically non-increasing under MINIMIZE and
non-decreasing under MAXIMIZE, with length the number of COMPLETE trials. -/
theorem history_best_monotone : ∀ s : Study,
    (∀ t ∈ completeTrials s, (t.value).isSome) →
    ∃ w fig, getOptimizationHistoryPlot s = .ok (w, fig) ∧
      (completeTrials s ≠ [] →
        ∃ ys : List ℚ,
          fig.data.getLast? =
            some (bestValuesTrace (completeTrials s) (ys.map PyVal.num)) ∧
          ys.length = (completeTrials s).length ∧
          (s.direction = .minimize → List.Chain' (fun a b => b ≤ a) ys) ∧
          (s.direction = .maximize → List.Chain' (fun a b => a ≤ b) ys)) := by
  intro s h
  by_cases hc : completeTrials s = []
  · exact ⟨_, _, historyPlot_empty s hc, fun hne => absurd hc hne⟩
  · refine ⟨_, _, historyPlot_ok s h hc, fun _ => ?_⟩
    refine ⟨bestSoFar s.direction (trialVals (completeTrials s)), ?_, ?_, ?_, ?_⟩
    · rfl
    · rw [bestSoFar_length, trialVals_length (completeTrials s) h]
    · intro hdir
      rw [hdir]
      exact bestSoFar_chain_min _
    · intro hdir
      rw [hdir]
      exact bestSoFar_chain_max _

/-- Witness for C4: the theorem applied at the concrete MINIMIZE study with
values `[5, 3, 8, 1]`. -/
theorem history_best_monotone_witness :
    ∃ w fig, getOptimizationHistoryPlot studyMin5381 = .ok (w, fig) ∧
      (completeTrials studyMin5381 ≠ [] →
        ∃ ys : List ℚ,
          fig.data.getLast? =
            some (bestValuesTrace (completeTrials studyMin5381) (ys.map PyVal.num)) ∧
          ys.length = (completeTrials studyMin5381).length ∧
          (studyMin5381.direction = .minimize → List.Chain' (fun a b => b ≤ a) ys) ∧
          (studyMin5381.direction = .maximize → List.Chain' (fun a b => a ≤ b) ys)) :=
  history_best_monotone studyMin5381 (by decide)

/-- C5: for every direction, on a study with zero trials each of the three
builders logs a warning and returns a figure with zero series and the
builder's layout, raising no error. -/
theorem empty_study_builders : ∀ dir : StudyDirection,
    getIntermediatePlot { direction := dir, trials := [] } =
      (["Study instance does not contain trials."],
       some { data := [], layout := intermediateLayout })
    ∧ getOptimizationHistoryPlot { direction := dir, trials := [] } =
      .ok (["Study instance does not contain trials."],
           { data := [], layout := historyLayout })
    ∧ getSlicePlot { direction := dir, trials := [] } [] =
      (["Your study does not have any completed trials."],
       .plain { data := [], layout := sliceLayout }) := by
  intro dir
  exact ⟨rfl, rfl, rfl⟩

theorem mapM_option_all_some {α β : Type} (f : α → Option β) (ts : List α)
    (h : ∀ a ∈ ts, (f a).isSome) :
    ∃ l, ts.mapM f = some l ∧ l.length = ts.length ∧
      ∀ (i : Nat) (a : α), ts[i]? = some a → ∃ b, f a = some b ∧ l[i]? = some b := by
  induction ts with
  | nil =>
    refine ⟨[], rfl, rfl, ?_⟩
    intro i a ha
    exact absurd ha (by simp)
  | cons a as ih =>
    obtain ⟨b, hb⟩ := Option.isSome_iff_exists.mp (h a (by simp))
    obtain ⟨l, hl, hlen, hidx⟩ := ih (fun a' ha' => h a' (by simp [ha']))
    refine ⟨b :: l, ?_, by simp [hlen], ?_⟩
    · rw [List.mapM_cons, hb, hl]
      rfl
    · intro i a' ha'
      cases i with
      | zero =>
        simp only [List.getElem?_cons_zero, Option.some.injEq] at ha'
        exact ⟨b, ha' ▸ hb, by simp⟩
      | succ j =>
        simp only [List.getElem?_cons_succ] at ha' ⊢
        exact hidx j a' ha'

/-- C3 counterexample: in `studyFirstNoIv` the second filtered trial does
expose intermediate values, yet the build returns the empty shell with the
pruning warning (zero series for two filtered trials), because the probe
looks only at the first filtered trial. -/
theorem intermediate_first_trial_hides_rest :
    (∃ t ∈ studyFirstNoIv.trials.filter (fun t => targetState.contains t.state),
      (t.intermediate_values).isSome)
    ∧ getIntermediatePlot studyFirstNoIv =
        (["You need to set up the pruning feature to utilize plot_intermediate_values()"],
         some { data := [], layout := intermediateLayout })
    ∧ (studyFirstNoIv.trials.filter (fun t => targetState.contains t.state)).length = 2 := by
  exact ⟨by decide, by rfl, by rfl⟩

/-- C3 (amended): the intermediate-values build probes only the first
filtered trial: if it lacks intermediate values the build warns and returns
the empty shell; if every filtered trial exposes intermediate values the
build returns one line-and-marker series per filtered trial, with the
recorded step indices as x, the corresponding values as y, the series named
by the trial's number, and at most 10 displayed markers. -/
theorem intermediate_plot_first_trial_spec :
    ∀ (s : Study) (t0 : FrozenTrial) (rest : List FrozenTrial),
    s.trials.filter (fun t => targetState.contains t.state) = t0 :: rest →
    (((t0.intermediate_values).isNone →
      getIntermediatePlot s =
        (["You need to set up the pruning feature to utilize plot_intermediate_values()"],
         some { data := [], layout := intermediateLayout }))
    ∧ ((∀ t ∈ t0 :: rest, (t.intermediate_values).isSome) →
      ∃ traces, getIntermediatePlot s =
          ([], some { data := traces, layout := intermediateLayout }) ∧
        traces.length = (t0 :: rest).length ∧
        ∀ (i : Nat) (t : FrozenTrial), (t0 :: rest)[i]? = some t →
          ∃ iv, t.intermediate_values = some iv ∧
            traces[i]? = some
              { x := iv.map (fun p => PyVal.num p.1),
                y := iv.map (fun p => PyVal.num p.2),
                mode := some "lines+markers",
                marker := { maxdisplayed := some 10 },
                name := some ("Trial" ++ toString t.number) })) := by
  intro s t0 rest hfilter
  constructor
  · intro hnone
    simp only [getIntermediatePlot, hfilter]
    rw [if_pos hnone]
  · intro hall
    have hsome : (t0.intermediate_values).isSome := hall t0 (by simp)
    have hmap : ∀ t ∈ t0 :: rest, (intermediateTrace t).isSome := by
      intro t ht
      simp only [intermediateTrace]
      rw [Option.isSome_map']
      exact hall t ht
    obtain ⟨l, hl, hlen, hidx⟩ := mapM_option_all_some intermediateTrace (t0 :: rest) hmap
    refine ⟨l, ?_, hlen, ?_⟩
    · have hne : ¬ (t0.intermediate_values).isNone = true := by
        simp only [Option.isNone_iff_eq_none]
        exact Option.isSome_iff_ne_none.mp hsome
      simp only [getIntermediatePlot, hfilter]
      rw [if_neg hne, hl]
      rfl
    · intro i t hti
      obtain ⟨b, hb, hbl⟩ := hidx i t hti
      have hmem : t ∈ t0 :: rest := List.getElem?_mem hti
      obtain ⟨iv, hiv⟩ := Option.isSome_iff_exists.mp (hall t hmem)
      refine ⟨iv, hiv, ?_⟩
      simp only [intermediateTrace, hiv, Option.map_some'] at hb
      rw [hbl, ← hb]

/-- Witness for the amended C3: at `studyWithIv` the filtered list is
concretely `[ivTrial0, ivTrial1]` and the theorem applies there. -/
theorem intermediate_plot_first_trial_spec_witness :
    studyWithIv.trials.filter (fun t => targetState.contains t.state) =
      ivTrial0 :: [ivTrial1] ∧
    ((((ivTrial0.intermediate_values)).isNone →
      getIntermediatePlot studyWithIv =
        (["You need to set up the pruning feature to utilize plot_intermediate_values()"],
         some { data := [], layout := intermediateLayout }))
    ∧ ((∀ t ∈ ivTrial0 :: [ivTrial1], (t.intermediate_values).isSome) →
      ∃ traces, getIntermediatePlot studyWithIv =
          ([], some { data := traces, layout := intermediateLayout }) ∧
        traces.length = (ivTrial0 :: [ivTrial1]).length ∧
        ∀ (i : Nat) (t : FrozenTrial), (ivTrial0 :: [ivTrial1])[i]? = some t →
          ∃ iv, t.intermediate_values = some iv ∧
            traces[i]? = some
              { x := iv.map (fun p => PyVal.num p.1),
                y := iv.map (fun p => PyVal.num p.2),
                mode := some "lines+markers",
                marker := { maxdisplayed := some 10 },
                name := some ("Trial" ++ toString t.number) })) :=
  ⟨by decide,
   intermediate_plot_first_trial_spec studyWithIv ivTrial0 [ivTrial1] (by decide)⟩

/-! ## Lemmas about the slice builder -/

theorem slicePlot_noComplete (s : Study) (ps : List String)
    (h : completeTrials s = []) :
    getSlicePlot s ps =
      (["Your study does not have any completed trials."],
       .plain { data := [], layout := sliceLayout }) := by
  have hct : s.trials.filter (fun t => t.state = TrialState.complete) = completeTrials s := rfl
  simp only [getSlicePlot, hct]
  rw [if_pos (by rw [h]; rfl)]

theorem slicePlot_noParams (s : Study)
    (hne : (completeTrials s).length ≠ 0) :
    getSlicePlot s [] =
      ([], slicePlotFrom (completeTrials s)
        (sortStr (allParamNames (completeTrials s)))) := by
  have hct : s.trials.filter (fun t => t.state = TrialState.complete) = completeTrials s := rfl
  simp only [getSlicePlot, hct]
  rw [if_neg hne]
  rfl

theorem slicePlot_unknown (s : Study) (ps : List String)
    (hne : (completeTrials s).length ≠ 0) (hps : ps.length ≠ 0) (bad : String)
    (hfind : ps.find? (fun p => !((allParamNames (completeTrials s)).contains p)) = some bad) :
    getSlicePlot s ps =
      (["Parameter " ++ bad ++ " does not exist in your study."],
       .plain { data := [], layout := sliceLayout }) := by
  have hct : s.trials.filter (fun t => t.state = TrialState.complete) = completeTrials s := rfl
  simp only [getSlicePlot, hct]
  rw [if_neg hne, if_neg hps, hfind]

theorem slicePlot_known (s : Study) (ps : List String)
    (hne : (completeTrials s).length ≠ 0) (hps : ps.length ≠ 0)
    (hfind : ps.find? (fun p => !((allParamNames (completeTrials s)).contains p)) = none) :
    getSlicePlot s ps =
      ([], slicePlotFrom (completeTrials s) (sortStr ps.dedup)) := by
  have hct : s.trials.filter (fun t => t.state = TrialState.complete) = completeTrials s := rfl
  simp only [getSlicePlot, hct]
  rw [if_neg hne, if_neg hps, hfind]

theorem panelNames_slicePlotFrom (trials : List FrozenTrial) (sp : List String) :
    panelNames (slicePlotFrom trials sp) = sp := by
  match sp with
  | [] => rfl
  | [p] => rfl
  | p :: q :: rest =>
    simp only [slicePlotFrom, panelNames, List.map_map]
    exact List.enum_map_snd (p :: q :: rest)

theorem panelCount_slicePlotFrom (trials : List FrozenTrial) (sp : List String) :
    panelCount (slicePlotFrom trials sp) = sp.length := by
  match sp with
  | [] => rfl
  | [p] => rfl
  | p :: q :: rest =>
    simp only [slicePlotFrom, panelCount, List.length_map, List.enum_length]

theorem slicePlotFrom_grid_inv (trials : List FrozenTrial) (sp : List String)
    (g : SubplotFigure) (h : slicePlotFrom trials sp = .grid g) :
    g.rows = 1 ∧ g.cols = sp.length ∧ g.sharedYaxes = true ∧
    g.traces = sp.enum.map (fun ip =>
      (setShowscale (generateSliceSubplot trials ip.2) (ip.1 = 0), 1, ip.1 + 1)) ∧
    g.xaxisTitles = sp.enum.map (fun ip => (ip.2, 1, ip.1 + 1)) ∧
    g.yaxisTitles = (if sp.isEmpty then [] else [("Objective Value", 1, 1)]) ∧
    g.layout = sliceLayout := by
  match sp with
  | [p] => exact absurd h (by simp [slicePlotFrom])
  | [] =>
    cases h
    exact ⟨rfl, rfl, rfl, rfl, rfl, rfl, rfl⟩
  | p :: q :: rest =>
    cases h
    exact ⟨rfl, by simp [List.enum_length], rfl, rfl, rfl, rfl, rfl⟩

theorem slicePlot_grid_inv (s : Study) (ps : List String) (w : List String)
    (g : SubplotFigure) (h : getSlicePlot s ps = (w, .grid g)) :
    ∃ sp, slicePlotFrom (completeTrials s) sp = .grid g ∧
      ((ps = [] ∧ sp = sortStr (allParamNames (completeTrials s))) ∨
       (ps ≠ [] ∧ sp = sortStr ps.dedup)) := by
  by_cases hlen : (completeTrials s).length = 0
  · rw [slicePlot_noComplete s ps (List.length_eq_zero.mp hlen)] at h
    exact absurd (congrArg Prod.snd h) (by simp)
  · by_cases hp : ps.length = 0
    · have hps : ps = [] := List.length_eq_zero.mp hp
      rw [hps, slicePlot_noParams s hlen] at h
      have h2 : slicePlotFrom (completeTrials s)
          (sortStr (allParamNames (completeTrials s))) = .grid g := congrArg Prod.snd h
      exact ⟨_, h2, Or.inl ⟨hps, rfl⟩⟩
    · cases hfind : ps.find?
          (fun p => !((allParamNames (completeTrials s)).contains p)) with
      | some bad =>
        rw [slicePlot_unknown s ps hlen hp bad hfind] at h
        exact absurd (congrArg Prod.snd h) (by simp)
      | none =>
        rw [slicePlot_known s ps hlen hp hfind] at h
        have h2 : slicePlotFrom (completeTrials s) (sortStr ps.dedup) = .grid g :=
          congrArg Prod.snd h
        exact ⟨_, h2, Or.inr ⟨fun hc => hp (by rw [hc]; rfl), rfl⟩⟩

theorem slicePlot_plain_inv (s : Study) (ps : List String) (w : List String)
    (f : Figure) (h : getSlicePlot s ps = (w, .plain f)) :
    f.data = [] ∨ ∃ p, f.data = [generateSliceSubplot (completeTrials s) p] := by
  by_cases hlen : (completeTrials s).length = 0
  · rw [slicePlot_noComplete s ps (List.length_eq_zero.mp hlen)] at h
    have h2 : Figure.mk [] sliceLayout = f := SliceFigure.plain.inj (congrArg Prod.snd h)
    rw [← h2]
    exact Or.inl rfl
  · have hfrom : ∀ sp, slicePlotFrom (completeTrials s) sp = .plain f →
        f.data = [] ∨ ∃ p, f.data = [generateSliceSubplot (completeTrials s) p] := by
      intro sp hsp
      match sp with
      | [] => exact absurd hsp (by simp [slicePlotFrom])
      | [p] =>
        cases hsp
        exact Or.inr ⟨p, rfl⟩
      | p :: q :: rest => exact absurd hsp (by simp [slicePlotFrom])
    by_cases hp : ps.length = 0
    · have hps : ps = [] := List.length_eq_zero.mp hp
      rw [hps, slicePlot_noParams s hlen] at h
      have h2 : slicePlotFrom (completeTrials s)
          (sortStr (allParamNames (completeTrials s))) = .plain f := congrArg Prod.snd h
      exact hfrom _ h2
    · cases hfind : ps.find?
          (fun p => !((allParamNames (completeTrials s)).contains p)) with
      | some bad =>
        rw [slicePlot_unknown s ps hlen hp bad hfind] at h
        have h2 : Figure.mk [] sliceLayout = f := SliceFigure.plain.inj (congrArg Prod.snd h)
        rw [← h2]
        exact Or.inl rfl
      | none =>
        rw [slicePlot_known s ps hlen hp hfind] at h
        have h2 : slicePlotFrom (completeTrials s) (sortStr ps.dedup) = .plain f :=
          congrArg Prod.snd h
        exact hfrom _ h2

theorem charListLtB_iff : ∀ as bs : List Char, charListLtB as bs = true ↔ as < bs := by
  intro as
  induction as with
  | nil =>
    intro bs
    cases bs with
    | nil =>
      simp only [charListLtB, Bool.false_eq_true, false_iff]
      intro h
      nomatch h
    | cons b bs =>
      simp only [charListLtB, true_iff]
      exact List.Lex.nil
  | cons a as ih =>
    intro bs
    cases bs with
    | nil =>
      simp only [charListLtB, Bool.false_eq_true, false_iff]
      intro h
      nomatch h
    | cons b bs =>
      simp only [charListLtB]
      by_cases h1 : a < b
      · simp only [h1, if_true, true_iff]
        exact List.Lex.rel h1
      · by_cases h2 : b < a
        · simp only [h1, h2, if_false, if_true, Bool.false_eq_true, false_iff]
          intro h
          cases h with
          | rel h' => exact h1 h'
          | cons _ => exact lt_irrefl a h2
        · have heq : a = b := le_antisymm (le_of_not_lt h2) (le_of_not_lt h1)
          subst heq
          simp only [h1, h2, if_false, ih bs]
          constructor
          · intro h
            exact List.Lex.cons h
          · intro h
            cases h with
            | rel h' => exact absurd h' h1
            | cons htl => exact htl

theorem strLeB_iff (a b : String) : strLeB a b = true ↔ a ≤ b := by
  rw [String.le_iff_toList_le]
  show (!(charListLtB b.data a.data)) = true ↔ a.toList ≤ b.toList
  rw [Bool.not_eq_true']
  rw [← Bool.not_eq_true, charListLtB_iff, not_lt]
  exact Iff.rfl

theorem sortStr_sorted (l : List String) : (sortStr l).Sorted (· ≤ ·) := by
  have htot : IsTotal String (fun a b => strLeB a b = true) := by
    constructor
    intro a b
    rcases le_total a b with h | h
    · exact Or.inl ((strLeB_iff a b).mpr h)
    · exact Or.inr ((strLeB_iff b a).mpr h)
  have htr : IsTrans String (fun a b => strLeB a b = true) := by
    constructor
    intro a b c hab hbc
    exact (strLeB_iff a c).mpr (le_trans ((strLeB_iff a b).mp hab) ((strLeB_iff b c).mp hbc))
  have h := @List.sorted_insertionSort String (fun a b => strLeB a b = true) _ htot htr l
  exact h.imp (fun hab => (strLeB_iff _ _).mp hab)

theorem sortStr_mem (l : List String) (a : String) : a ∈ sortStr l ↔ a ∈ l :=
  (List.perm_insertionSort _ l).mem_iff

theorem sortStr_nodup (l : List String) (h : l.Nodup) : (sortStr l).Nodup :=
  ((List.perm_insertionSort _ l).nodup_iff).mpr h

theorem allParamNames_nodup (trials : List FrozenTrial) :
    (allParamNames trials).Nodup :=
  List.nodup_dedup _

theorem contains_mem (l : List String) (p : String) :
    l.contains p = true ↔ p ∈ l := by
  simp [List.contains, List.elem_iff]

theorem mem_allParamNames (trials : List FrozenTrial) (p : String) :
    p ∈ allParamNames trials ↔ ∃ t ∈ trials, hasParam t p := by
  simp only [allParamNames, List.mem_dedup, List.mem_flatMap, List.mem_map,
    hasParam, List.lookup_isSome_iff, beq_iff_eq]
  constructor
  · rintro ⟨t, ht, pr, hpr, he⟩
    exact ⟨t, ht, pr, hpr, he.symm⟩
  · rintro ⟨t, ht, pr, hpr, he⟩
    exact ⟨t, ht, pr, hpr, he.symm⟩

/-- C6 counterexample: with a study that has no COMPLETE trial and
`params = ["x"]` (so `"x"` does not appear among the COMPLETE trials'
parameter names), the build returns the "no completed trials" warning and
empty shell — it does not warn on the unknown name `"x"`. -/
theorem slice_unknown_no_complete_counterexample :
    ("x" ∉ allParamNames (completeTrials studyNoComplete)) ∧
    getSlicePlot studyNoComplete ["x"] =
      (["Your study does not have any completed trials."],
       .plain { data := [], layout := sliceLayout }) ∧
    (getSlicePlot studyNoComplete ["x"]).1 ≠
      ["Parameter x does not exist in your study."] := by
  exact ⟨by decide, by rfl, by decide⟩

/-- C6 (amended): for every slice build with a non-empty params list over a
study with at least one COMPLETE trial, if some requested name is unknown,
the build warns on the first unknown name and immediately returns the empty
shell, raising nothing and rendering no panel. -/
theorem slice_unknown_param_shell : ∀ (s : Study) (ps : List String),
    completeTrials s ≠ [] → ps ≠ [] →
    (∃ p ∈ ps, p ∉ allParamNames (completeTrials s)) →
    ∃ bad, ps.find?
        (fun p => !((allParamNames (completeTrials s)).contains p)) = some bad ∧
      bad ∉ allParamNames (completeTrials s) ∧
      getSlicePlot s ps =
        (["Parameter " ++ bad ++ " does not exist in your study."],
         .plain { data := [], layout := sliceLayout }) := by
  intro s ps hne hps hex
  have hlen : (completeTrials s).length ≠ 0 := fun h => hne (List.length_eq_zero.mp h)
  have hplen : ps.length ≠ 0 := fun h => hps (List.length_eq_zero.mp h)
  have hsome : (ps.find?
      (fun p => !((allParamNames (completeTrials s)).contains p))).isSome := by
    rw [List.find?_isSome]
    obtain ⟨p, hp, hnotin⟩ := hex
    refine ⟨p, hp, ?_⟩
    simp only [Bool.not_eq_true']
    rw [← Bool.not_eq_true]
    intro hc
    exact hnotin ((contains_mem _ p).mp hc)
  obtain ⟨bad, hfind⟩ := Option.isSome_iff_exists.mp hsome
  have hbadp := List.find?_some hfind
  have hbad : bad ∉ allParamNames (completeTrials s) := by
    intro hc
    have hcb := (contains_mem (allParamNames (completeTrials s)) bad).mpr hc
    rw [hcb] at hbadp
    simp at hbadp
  exact ⟨bad, hfind, hbad, slicePlot_unknown s ps hlen hplen bad hfind⟩

/-- Witness for the amended C6: the theorem applied to the two-trial demo
study with the unknown name `"z"`. -/
theorem slice_unknown_param_shell_witness :
    completeTrials studySliceDemo ≠ [] ∧ (["z"] : List String) ≠ [] ∧
    (∃ p ∈ ["z"], p ∉ allParamNames (completeTrials studySliceDemo)) ∧
    ∃ bad, (["z"] : List String).find?
        (fun p => !((allParamNames (completeTrials studySliceDemo)).contains p)) = some bad ∧
      bad ∉ allParamNames (completeTrials studySliceDemo) ∧
      getSlicePlot studySliceDemo ["z"] =
        (["Parameter " ++ bad ++ " does not exist in your study."],
         .plain { data := [], layout := sliceLayout }) :=
  ⟨by decide, by decide, by decide,
   slice_unknown_param_shell studySliceDemo ["z"] (by decide) (by decide) (by decide)⟩

/-- C7: over a study with at least one COMPLETE trial, the panel set of the
slice build is the lexicographically sorted union of the COMPLETE trials'
parameter names when `params` is empty, and the de-duplicated sorted
requested names when `params` is non-empty and fully known; the build has
exactly one panel per name in that set. -/
theorem slice_panel_names : ∀ (s : Study) (ps : List String),
    completeTrials s ≠ [] →
    (ps = [] ∨ ∀ p ∈ ps, p ∈ allParamNames (completeTrials s)) →
    ∃ names, panelNames (getSlicePlot s ps).2 = names ∧
      names.Sorted (· ≤ ·) ∧ names.Nodup ∧
      panelCount (getSlicePlot s ps).2 = names.length ∧
      (ps = [] →
        names = sortStr (allParamNames (completeTrials s)) ∧
        ∀ p, p ∈ names ↔ ∃ t ∈ completeTrials s, hasParam t p) ∧
      (ps ≠ [] → names = sortStr ps.dedup ∧ ∀ p, p ∈ names ↔ p ∈ ps) := by
  intro s ps hne hok
  have hlen : (completeTrials s).length ≠ 0 := fun h => hne (List.length_eq_zero.mp h)
  by_cases hps : ps = []
  · subst hps
    rw [slicePlot_noParams s hlen]
    refine ⟨sortStr (allParamNames (completeTrials s)),
      panelNames_slicePlotFrom _ _, sortStr_sorted _,
      sortStr_nodup _ (allParamNames_nodup _),
      panelCount_slicePlotFrom _ _, ?_, ?_⟩
    · intro _
      refine ⟨rfl, fun p => ?_⟩
      rw [sortStr_mem, mem_allParamNames]
    · intro hc
      exact absurd rfl hc
  · have hall : ∀ p ∈ ps, p ∈ allParamNames (completeTrials s) := hok.resolve_left hps
    have hplen : ps.length ≠ 0 := fun h => hps (List.length_eq_zero.mp h)
    have hfind : ps.find?
        (fun p => !((allParamNames (completeTrials s)).contains p)) = none := by
      rw [List.find?_eq_none]
      intro p hp
      simp only [Bool.not_eq_true', Bool.not_eq_false]
      exact (contains_mem _ p).mpr (hall p hp)
    rw [slicePlot_known s ps hlen hplen hfind]
    refine ⟨sortStr ps.dedup, panelNames_slicePlotFrom _ _, sortStr_sorted _,
      sortStr_nodup _ (List.nodup_dedup ps), panelCount_slicePlotFrom _ _,
      fun hc => absurd hc hps, fun _ => ⟨rfl, fun p => ?_⟩⟩
    rw [sortStr_mem, List.mem_dedup]

/-- Witness for C7: the theorem applied to the two-trial demo study with an
empty params list. -/
theorem slice_panel_names_witness :
    completeTrials studySliceDemo ≠ [] ∧
    ∃ names, panelNames (getSlicePlot studySliceDemo []).2 = names ∧
      names.Sorted (· ≤ ·) ∧ names.Nodup ∧
      panelCount (getSlicePlot studySliceDemo []).2 = names.length ∧
      (([] : List String) = [] →
        names = sortStr (allParamNames (completeTrials studySliceDemo)) ∧
        ∀ p, p ∈ names ↔ ∃ t ∈ completeTrials studySliceDemo, hasParam t p) ∧
      (([] : List String) ≠ [] →
        names = sortStr ([] : List String).dedup ∧ ∀ p, p ∈ names ↔ p ∈ ([] : List String)) :=
  ⟨by decide, slice_panel_names studySliceDemo [] (by decide) (Or.inl rfl)⟩

/-- C10: over a study with at least one COMPLETE trial none of which has
any parameter, the slice build with the default empty params list takes the
multi-panel branch and invokes the subplot constructor with zero columns —
no warning is logged and the guarded empty-shell return is not reached. -/
theorem slice_no_params_zero_cols : ∀ s : Study,
    completeTrials s ≠ [] → (∀ t ∈ completeTrials s, t.params = []) →
    getSlicePlot s [] =
      ([], .grid { rows := 1, cols := 0, sharedYaxes := true, traces := [],
                   xaxisTitles := [], yaxisTitles := [], layout := sliceLayout }) := by
  intro s hne hp
  have hlen : (completeTrials s).length ≠ 0 := fun h => hne (List.length_eq_zero.mp h)
  rw [slicePlot_noParams s hlen]
  have hall : allParamNames (completeTrials s) = [] := by
    have hflat : (completeTrials s).flatMap (fun t => t.params.map Prod.fst) = [] := by
      rw [List.flatMap_eq_nil_iff]
      intro t ht
      rw [hp t ht]
      rfl
    simp [allParamNames, hflat]
  rw [hall]
  rfl

/-- Witness for C10: the theorem applied to the study with one COMPLETE
parameterless trial. -/
theorem slice_no_params_zero_cols_witness :
    completeTrials studyNoParams ≠ [] ∧
    (∀ t ∈ completeTrials studyNoParams, t.params = []) ∧
    getSlicePlot studyNoParams [] =
      ([], .grid { rows := 1, cols := 0, sharedYaxes := true, traces := [],
                   xaxisTitles := [], yaxisTitles := [], layout := sliceLayout }) :=
  ⟨by decide, by decide,
   slice_no_params_zero_cols studyNoParams (by decide) (by decide)⟩

theorem setShowscale_marker (sc : Scatter) (b : Bool) :
    (setShowscale sc b).marker.showscale = some b := rfl

/-- C8: whenever the slice build produces a subplot grid with two or more
columns, the panels sit in a single row sharing the y-axis, there is one
trace per column, only the first panel's trace carries the color-scale
legend flag, every panel's x-axis is titled with its parameter name (the
trace at the same column is the subplot for that name), and only the
leftmost panel's y-axis is titled "Objective Value". -/
theorem slice_multi_panel_layout : ∀ (s : Study) (ps w : List String) (g : SubplotFigure),
    getSlicePlot s ps = (w, .grid g) → 2 ≤ g.cols →
    g.rows = 1 ∧ g.sharedYaxes = true ∧
    g.traces.length = g.cols ∧ g.xaxisTitles.length = g.cols ∧
    g.yaxisTitles = [("Objective Value", 1, 1)] ∧
    (∀ (i : Nat) (tr : Scatter) (r c : Nat), g.traces[i]? = some (tr, r, c) →
      r = 1 ∧ c = i + 1 ∧ tr.marker.showscale = some (decide (i = 0)) ∧
      (tr.marker.showscale = some true ↔ i = 0)) ∧
    (∀ (i : Nat) (p : String) (r c : Nat), g.xaxisTitles[i]? = some (p, r, c) →
      r = 1 ∧ c = i + 1 ∧
      g.traces[i]? = some
        (setShowscale (generateSliceSubplot (completeTrials s) p) (decide (i = 0)),
         1, i + 1)) := by
  intro s ps w g h hcols
  obtain ⟨sp, hsp, _⟩ := slicePlot_grid_inv s ps w g h
  obtain ⟨hr, hc, hsh, htr, hx, hy, _⟩ := slicePlotFrom_grid_inv _ _ _ hsp
  have hspne : ¬ sp.isEmpty = true := by
    intro hemp
    rw [List.isEmpty_iff] at hemp
    rw [hc, hemp] at hcols
    exact absurd hcols (by decide)
  refine ⟨hr, hsh, ?_, ?_, ?_, ?_, ?_⟩
  · rw [htr, hc, List.length_map, List.enum_length]
  · rw [hx, hc, List.length_map, List.enum_length]
  · rw [hy, if_neg hspne]
  · intro i tr r c hi
    rw [htr, List.getElem?_map, List.getElem?_enum] at hi
    cases hsp2 : sp[i]? with
    | none => rw [hsp2] at hi; exact absurd hi (by simp)
    | some p =>
      rw [hsp2] at hi
      simp only [Option.map_some'] at hi
      injection hi with hi
      obtain ⟨h1, h2⟩ := Prod.mk.injEq .. ▸ hi
      obtain ⟨h3, h4⟩ := Prod.mk.injEq .. ▸ h2
      refine ⟨h3.symm, h4.symm, ?_, ?_⟩
      · rw [← h1, setShowscale_marker]
      · rw [← h1, setShowscale_marker]
        simp
  · intro i p r c hi
    rw [hx, List.getElem?_map, List.getElem?_enum] at hi
    cases hsp2 : sp[i]? with
    | none => rw [hsp2] at hi; exact absurd hi (by simp)
    | some q =>
      rw [hsp2] at hi
      simp only [Option.map_some'] at hi
      injection hi with hi
      obtain ⟨h1, h2⟩ := Prod.mk.injEq .. ▸ hi
      obtain ⟨h3, h4⟩ := Prod.mk.injEq .. ▸ h2
      refine ⟨h3.symm, h4.symm, ?_⟩
      rw [htr, List.getElem?_map, List.getElem?_enum, hsp2]
      simp only [Option.map_some']
      rw [h1]

/-- Witness for C8: at the two-parameter demo study the build produces the
concrete grid `demoGrid`, and the theorem applies to it. -/
theorem slice_multi_panel_layout_witness :
    getSlicePlot studySliceDemo [] = ([], .grid demoGrid) ∧ 2 ≤ demoGrid.cols ∧
    (demoGrid.rows = 1 ∧ demoGrid.sharedYaxes = true ∧
     demoGrid.traces.length = demoGrid.cols ∧
     demoGrid.xaxisTitles.length = demoGrid.cols ∧
     demoGrid.yaxisTitles = [("Objective Value", 1, 1)] ∧
     (∀ (i : Nat) (tr : Scatter) (r c : Nat), demoGrid.traces[i]? = some (tr, r, c) →
       r = 1 ∧ c = i + 1 ∧ tr.marker.showscale = some (decide (i = 0)) ∧
       (tr.marker.showscale = some true ↔ i = 0)) ∧
     (∀ (i : Nat) (p : String) (r c : Nat), demoGrid.xaxisTitles[i]? = some (p, r, c) →
       r = 1 ∧ c = i + 1 ∧
       demoGrid.traces[i]? = some
         (setShowscale (generateSliceSubplot (completeTrials studySliceDemo) p) (decide (i = 0)),
          1, i + 1))) :=
  ⟨by decide, by decide,
   slice_multi_panel_layout studySliceDemo [] [] demoGrid (by decide) (by decide)⟩

/-- C9: a parameter panel's series contains exactly the trials whose params
mapping has that parameter, in trial order — the x values are those trials'
parameter values, the y values their objective values, the marker colors
their trial numbers, all three sequences of equal length; a trial missing
the parameter is skipped for that panel only, and every panel of a slice
build is such a series over the study's COMPLETE trials. -/
theorem slice_series_per_panel :
    (∀ (trials : List FrozenTrial) (p : String),
      (generateSliceSubplot trials p).x =
        (trials.filter (fun t => hasParam t p)).map (fun t => PyVal.num (paramVal t p)) ∧
      (generateSliceSubplot trials p).y =
        (trials.filter (fun t => hasParam t p)).map (fun t => optVal t.value) ∧
      (generateSliceSubplot trials p).marker.color =
        some ((trials.filter (fun t => hasParam t p)).map (fun t => PyVal.num t.number)) ∧
      (generateSliceSubplot trials p).x.length = (generateSliceSubplot trials p).y.length ∧
      (generateSliceSubplot trials p).y.length =
        (trials.filter (fun t => hasParam t p)).length ∧
      (∀ t ∈ trials, hasParam t p = true → t ∈ trials.filter (fun t => hasParam t p)) ∧
      (∀ t ∈ trials.filter (fun t => hasParam t p), t ∈ trials ∧ hasParam t p = true))
    ∧ (∀ (s : Study) (ps w : List String) (g : SubplotFigure),
        getSlicePlot s ps = (w, .grid g) →
        ∀ e ∈ g.traces, ∃ q b,
          e.1 = setShowscale (generateSliceSubplot (completeTrials s) q) b)
    ∧ (∀ (s : Study) (ps w : List String) (f : Figure),
        getSlicePlot s ps = (w, .plain f) →
        ∀ tr ∈ f.data, ∃ q, tr = generateSliceSubplot (completeTrials s) q) := by
  refine ⟨?_, ?_, ?_⟩
  · intro trials p
    refine ⟨rfl, rfl, rfl, ?_, ?_, ?_, ?_⟩
    · simp [generateSliceSubplot]
    · simp [generateSliceSubplot]
    · intro t ht hp
      exact List.mem_filter.mpr ⟨ht, hp⟩
    · intro t ht
      exact ⟨(List.mem_filter.mp ht).1, (List.mem_filter.mp ht).2⟩
  · intro s ps w g h e he
    obtain ⟨sp, hsp, _⟩ := slicePlot_grid_inv s ps w g h
    obtain ⟨_, _, _, htr, _, _, _⟩ := slicePlotFrom_grid_inv _ _ _ hsp
    rw [htr] at he
    obtain ⟨ip, _, hip⟩ := List.mem_map.mp he
    exact ⟨ip.2, decide (ip.1 = 0), by rw [← hip]⟩
  · intro s ps w f h tr htr
    rcases slicePlot_plain_inv s ps w f h with hd | ⟨q, hd⟩
    · rw [hd] at htr
      exact absurd htr (by simp)
    · rw [hd] at htr
      rcases List.mem_singleton.mp htr with rfl
      exact ⟨q, rfl⟩

/-- Witness for C9: the first block applied at the demo study's COMPLETE
trials and parameter `a`, and the second block applied at the demo grid. -/
theorem slice_series_per_panel_witness :
    ((generateSliceSubplot (completeTrials studySliceDemo) "a").x =
      ((completeTrials studySliceDemo).filter (fun t => hasParam t "a")).map
        (fun t => PyVal.num (paramVal t "a")) ∧
     (generateSliceSubplot (completeTrials studySliceDemo) "a").y =
      ((completeTrials studySliceDemo).filter (fun t => hasParam t "a")).map
        (fun t => optVal t.value) ∧
     (generateSliceSubplot (completeTrials studySliceDemo) "a").marker.color =
      some (((completeTrials studySliceDemo).filter (fun t => hasParam t "a")).map
        (fun t => PyVal.num t.number)) ∧
     (generateSliceSubplot (completeTrials studySliceDemo) "a").x.length =
      (generateSliceSubplot (completeTrials studySliceDemo) "a").y.length ∧
     (generateSliceSubplot (completeTrials studySliceDemo) "a").y.length =
      ((completeTrials studySliceDemo).filter (fun t => hasParam t "a")).length ∧
     (∀ t ∈ completeTrials studySliceDemo, hasParam t "a" = true →
       t ∈ (completeTrials studySliceDemo).filter (fun t => hasParam t "a")) ∧
     (∀ t ∈ (completeTrials studySliceDemo).filter (fun t => hasParam t "a"),
       t ∈ completeTrials studySliceDemo ∧ hasParam t "a" = true))
    ∧ (∀ e ∈ demoGrid.traces, ∃ q b,
        e.1 = setShowscale (generateSliceSubplot (completeTrials studySliceDemo) q) b) :=
  ⟨slice_series_per_panel.1 (completeTrials studySliceDemo) "a",
   slice_series_per_panel.2.1 studySliceDemo [] [] demoGrid (by decide)⟩
